import Mathlib

/-!
Verification of the task-hierarchy core of the Task-Manager web application.

The development shallowly embeds the entity layer (`app/models/task.py`,
`app/models/project.py`) and the request handlers that mutate it
(`app/views/tasks.py`, `app/views/api.py`) as pure Lean functions:

* Python strings are `List Char`; `str.strip`, `str.split` and `str.join`
  are translated element for element.
* `datetime` values are abstract instants (`Nat`); `datetime.utcnow()` is a
  `now` parameter threaded into each operation.  Successive `utcnow()` calls
  inside one operation are identified, as the spec treats them as one instant.
* SQLAlchemy rows are records, tables are lists of records, and the ambient
  session/commit/rollback discipline of a handler is made explicit where a
  claim depends on it (the delete cascade).
* CPython `float` arithmetic is modelled exactly: an IEEE-754 binary64 value
  is a dyadic rational, and every arithmetic result is rounded to 53
  significant bits with round-to-nearest, ties-to-even (`roundDouble` below).
* fields of the Python models that no claim mentions (e.g. `estimated_hours`,
  `actual_hours`, `project_id` on the tree model) are omitted from the
  corresponding record; the embedded operations never read them.
-/

namespace TaskMgr

/-- `TaskPriority` enum, `app/models/task.py` lines 6-10. -/
inductive TaskPriority where
  | low | medium | high | urgent
  deriving DecidableEq, Repr

/-- `TaskStatus` enum, `app/models/task.py` lines 12-16. -/
inductive TaskStatus where
  | todo | in_progress | review | done
  deriving DecidableEq, Repr

/-! ## Python strings -/

/-- A Python `str` as a list of characters. -/
abbrev PyStr := List Char

/-- The six characters `str.strip()` removes (Python's `str.isspace` set
restricted to ASCII, which is what the repository's inputs contain). -/
def pyIsSpace (c : Char) : Bool :=
  c = ' ' || c = '\t' || c = '\n' || c = '\r' || c = '\x0b' || c = '\x0c'

/-- Python `s.strip()`: drop whitespace from both ends. -/
def pyStrip (s : PyStr) : PyStr :=
  ((s.dropWhile pyIsSpace).reverse.dropWhile pyIsSpace).reverse

/-- Python `s.split(',')`: split at every comma, keeping empty pieces.
`List.splitOn` has exactly this behaviour. -/
def pySplitComma (s : PyStr) : List PyStr :=
  s.splitOn ','

/-- Python `','.join(pieces)`. -/
def pyJoinComma (pieces : List PyStr) : PyStr :=
  List.intercalate [','] pieces

/-! ## Tag storage (`Task.set_tags` / `Task.get_tags_list`,
`app/models/task.py` lines 111-122) -/

/-- `Task.set_tags` (lines 117-122): the value written to the `tags` column.
The argument is `Option` because the Python parameter may be `None`; Python
truthiness makes `None` and `[]` take the `else` branch, which stores `''`.
Otherwise the comprehension `[tag.strip() for tag in tags_list if tag.strip()]`
keeps the stripped form of every entry whose stripped form is non-empty, and
the results are comma-joined. -/
def set_tags (tags_list : Option (List PyStr)) : PyStr :=
  match tags_list with
  | none => []
  | some l =>
    if l = [] then []
    else pyJoinComma ((l.filter (fun t => pyStrip t ≠ [])).map pyStrip)

/-- `Task.get_tags_list` (lines 111-115): `[]` when the column is `NULL` or
`''`, otherwise the comprehension
`[tag.strip() for tag in self.tags.split(',') if tag.strip()]`. -/
def get_tags_list (tags : PyStr) : List PyStr :=
  if tags = [] then []
  else ((pySplitComma tags).filter (fun t => pyStrip t ≠ [])).map pyStrip

/-! ## Exact model of CPython float (IEEE-754 binary64) arithmetic

All float values appearing in the claims are nonnegative, so a float is
modelled as an unreduced nonnegative fraction `num/den`.  `roundDouble`
rounds such a fraction to 53 significant bits (round to nearest, ties to
even), which is exactly the result CPython produces for `a / b` on ints and
for float multiplication, in the normal (non-overflow, non-subnormal) range
covered by every input below. -/

structure PosRat where
  num : Nat
  den : Nat
  deriving DecidableEq, Repr

/-- Fuel-driven `⌊log₂ n⌋` (0 for `n ≤ 1`); fuel 200 is ample for every
numerator that arises below. -/
def log2floorAux : Nat → Nat → Nat
  | 0, _ => 0
  | fuel+1, n => if n ≤ 1 then 0 else log2floorAux fuel (n / 2) + 1

/-- `⌊log₂ q⌋` for `q = num/den`, exact whenever `2 ^ (-64) ≤ q < 2 ^ 136`. -/
def PosRat.floorLog2 (q : PosRat) : ℤ :=
  (log2floorAux 200 (q.num * 2 ^ 64 / q.den) : ℤ) - 64

/-- Multiply `q` by `2 ^ k`. -/
def PosRat.scale (q : PosRat) : ℤ → PosRat
  | .ofNat k => ⟨q.num * 2 ^ k, q.den⟩
  | .negSucc k => ⟨q.num, q.den * 2 ^ (k + 1)⟩

/-- Round `q` to the nearest integer, ties to even. -/
def PosRat.rne (q : PosRat) : Nat :=
  let w := q.num / q.den
  let r := q.num % q.den
  if 2 * r < q.den then w
  else if q.den < 2 * r then w + 1
  else if w % 2 = 0 then w else w + 1

/-- Round a positive rational to the nearest IEEE-754 binary64 value:
normalise the significand into `[2 ^ 52, 2 ^ 53)`, round to integer with
ties to even, and scale back. -/
def roundDouble (q : PosRat) : PosRat :=
  if q.num = 0 then ⟨0, 1⟩
  else
    let e := q.floorLog2
    (PosRat.mk (q.scale (52 - e)).rne 1).scale (e - 52)

/-- CPython `completed / total * 100` for ints, truncated by `int(...)`:
true division is correctly rounded to binary64, the product with the exact
float `100.0` is correctly rounded again, and `int` truncates (= floor here,
as the value is nonnegative). -/
def progressFloat (completed total : Nat) : Nat :=
  let q := roundDouble ⟨completed, total⟩
  let p := roundDouble ⟨q.num * 100, q.den⟩
  p.num / p.den

/-! ## The task tree

`Task.subtasks` is the self-referential relationship (`app/models/task.py`
line 49): the tasks whose `parent_task_id` is this task's id.  For the
operations that walk that relationship (`mark_completed`) the hierarchy is
embedded as a finitely-branching tree. -/

structure TaskNode where
  title : PyStr
  description : Option PyStr
  priority : TaskPriority
  status : TaskStatus
  is_completed : Bool
  updated_at : Nat
  due_date : Option Nat
  completed_at : Option Nat
  tags : PyStr
  category : Option PyStr
  subtasks : List TaskNode

/-- The SQLAlchemy event listener `task_completion_listener`
(`app/models/task.py` lines 224-232) together with the attribute write it
intercepts: assigning `t.is_completed = value` sets `completed_at` and
`status` when the flag flips false→true or true→false, and otherwise just
stores the flag. -/
def task_completion_listener (now : Nat) (t : TaskNode) (value : Bool) : TaskNode :=
  if value && !t.is_completed then
    { t with is_completed := value, completed_at := some now, status := .done }
  else if !value && t.is_completed then
    { t with is_completed := value, completed_at := none, status := .todo }
  else
    { t with is_completed := value }

mutual
/-- `Task.mark_completed` (`app/models/task.py` lines 59-69).  The assignment
`self.is_completed = True` fires `task_completion_listener`, and the method
then assigns `status`, `completed_at` and `updated_at` explicitly; the net
field effect is recorded directly (fields positionally: title, description,
priority, status, is_completed, updated_at, due_date, completed_at, tags,
category, subtasks).  The loop recurses only into subtasks with
`not subtask.is_completed`. -/
def mark_completed : Nat → TaskNode → TaskNode
  | now, ⟨ti, de, pr, _, _, _, dd, _, tg, cg, subs⟩ =>
    ⟨ti, de, pr, .done, true, now, dd, some now, tg, cg,
     mark_completed_subtasks now subs⟩

/-- The loop `for subtask in self.subtasks: if not subtask.is_completed:
subtask.mark_completed()` of `Task.mark_completed`. -/
def mark_completed_subtasks : Nat → List TaskNode → List TaskNode
  | _, [] => []
  | now, s :: rest =>
    (if s.is_completed then s else mark_completed now s) ::
      mark_completed_subtasks now rest
end

/-- `Task.mark_incomplete` (`app/models/task.py` lines 71-76): flag false,
status TODO, timestamp cleared, `updated_at` touched; no recursion. -/
def mark_incomplete (now : Nat) (t : TaskNode) : TaskNode :=
  { t with is_completed := false, status := .todo, completed_at := none,
           updated_at := now }

/-- `Task.get_progress_percentage` (`app/models/task.py` lines 124-131):
with no subtasks, 100 if completed else 0; otherwise
`int((completed_subtasks / total_subtasks) * 100)` in CPython float
arithmetic. -/
def get_progress_percentage (t : TaskNode) : Nat :=
  if t.subtasks.length = 0 then (if t.is_completed then 100 else 0)
  else progressFloat (t.subtasks.filter (fun s => s.is_completed)).length t.subtasks.length

mutual
/-- `allNodes p t`: `p` holds at `t` and at every direct or indirect subtask. -/
def allNodes (p : TaskNode → Bool) : TaskNode → Bool
  | ⟨ti, de, pr, st, ic, ua, dd, ca, tg, cg, subs⟩ =>
    p ⟨ti, de, pr, st, ic, ua, dd, ca, tg, cg, subs⟩ && allNodesList p subs

/-- `allNodesList p l`: `allNodes p` holds for every tree in `l`. -/
def allNodesList (p : TaskNode → Bool) : List TaskNode → Bool
  | [] => true
  | s :: rest => allNodes p s && allNodesList p rest
end

/-- Every direct and indirect subtask of `t` is completed (`t` itself not
required). -/
def descendantsCompleted (t : TaskNode) : Bool :=
  allNodesList (fun s => s.is_completed) t.subtasks

/-- Local hereditary-completion check: a completed node has only completed
direct subtasks.  `allNodes hereditaryCompletion t` states it for a whole
tree; it holds in every state the application's own operations produce. -/
def hereditaryCompletion (t : TaskNode) : Bool :=
  !t.is_completed || t.subtasks.all (fun s => s.is_completed)

/-! ## The generic JSON update endpoint (`api_update_task`,
`app/views/api.py` lines 149-202)

The decoded JSON payload: `none` means the key is absent.  For keys whose
JSON value may itself be `null` (`due_date`), the inner `Option` is the
value.  The `estimated_hours` / `actual_hours` / `project_id` branches touch
only fields no claim mentions and are omitted; enum parsing
(`TaskPriority(...)` / `TaskStatus(...)`) is modelled by the payload already
carrying enum values (an unrecognised string raises `ValueError` before any
field is assigned, leaving the task unchanged). -/
structure UpdateData where
  title : Option PyStr
  description : Option (Option PyStr)
  priority : Option TaskPriority
  status : Option TaskStatus
  is_completed : Option Bool
  category : Option (Option PyStr)
  tags : Option (Option (List PyStr))
  due_date : Option (Option Nat)

/-- `api_update_task`, field assignments in source order (lines 164-190).
`status` is a plain attribute write — the completion listener is attached to
`is_completed` only; the `is_completed` branch goes through
`task_completion_listener`; the method ends with `task.updated_at = now`. -/
def api_update_task (d : UpdateData) (now : Nat) (t : TaskNode) : TaskNode :=
  let t := match d.title with | some v => { t with title := v } | none => t
  let t := match d.description with | some v => { t with description := v } | none => t
  let t := match d.priority with | some v => { t with priority := v } | none => t
  let t := match d.status with | some v => { t with status := v } | none => t
  let t := match d.is_completed with
           | some v => task_completion_listener now t v
           | none => t
  let t := match d.category with | some v => { t with category := v } | none => t
  let t := match d.tags with | some v => { t with tags := set_tags v } | none => t
  let t := match d.due_date with | some v => { t with due_date := v } | none => t
  { t with updated_at := now }

/-! ## Row-level store model

The handler-level claims (delete cascade, create validation, pagination)
operate on the tables themselves, so they are embedded against lists of
rows mirroring the columns the claims mention. -/

/-- A row of the `tasks` table (`app/models/task.py` lines 18-50),
restricted to the columns the handler-level claims read or write. -/
structure TaskRow where
  id : Nat
  title : PyStr
  user_id : Nat
  project_id : Option Nat
  parent_task_id : Option Nat
  is_completed : Bool
  created_at : Nat
  tags : PyStr
  category : Option PyStr
  due_date : Option Nat
  deriving DecidableEq, Repr

/-- A row of the `task_comments` table (lines 171-181). -/
structure CommentRow where
  id : Nat
  task_id : Nat
  user_id : Nat
  deriving DecidableEq, Repr

/-- A row of the `task_attachments` table (lines 195-208). -/
structure AttachmentRow where
  id : Nat
  task_id : Nat
  uploaded_by : Nat
  deriving DecidableEq, Repr

/-- The persistent store: the three tables the task claims involve. -/
structure DB where
  tasks : List TaskRow
  comments : List CommentRow
  attachments : List AttachmentRow
  deriving DecidableEq, Repr

/-- `Task.query.filter_by(id=tid, user_id=uid).first()` — the ownership-scoped
lookup every task handler starts with. -/
def findTask (db : DB) (tid uid : Nat) : Option TaskRow :=
  db.tasks.find? (fun t => t.id == tid && t.user_id == uid)

/-! ### The web delete cascade (`delete_task`, `app/views/tasks.py`
lines 198-231)

The handler body mutates the ORM session in four steps and commits once at
the end; the `except` clause rolls the session back.  The steps are made
explicit so that the atomicity claim can speak about a failure in the middle
of the sequence. -/

/-- Step 1: `Task.query.filter_by(parent_task_id=task.id)` — every subtask
row (any owner) is reparented to `None`. -/
def reparentStep (tid : Nat) (db : DB) : DB :=
  { db with tasks := db.tasks.map (fun t =>
      if t.parent_task_id = some tid then { t with parent_task_id := none } else t) }

/-- Step 2: delete every row of `task.comments` (the comments whose
`task_id` is the task's id). -/
def deleteCommentsStep (tid : Nat) (db : DB) : DB :=
  { db with comments := db.comments.filter (fun c => c.task_id ≠ tid) }

/-- Step 3: delete every row of `task.attachments`. -/
def deleteAttachmentsStep (tid : Nat) (db : DB) : DB :=
  { db with attachments := db.attachments.filter (fun a => a.task_id ≠ tid) }

/-- Step 4: `db.session.delete(task)` — the task row itself. -/
def deleteTaskRowStep (tid : Nat) (db : DB) : DB :=
  { db with tasks := db.tasks.filter (fun t => t.id ≠ tid) }

/-- The four session steps of the web delete handler, in source order. -/
def deleteCascadeSteps (tid : Nat) : List (DB → DB) :=
  [reparentStep tid, deleteCommentsStep tid, deleteAttachmentsStep tid,
   deleteTaskRowStep tid]

/-- Run a list of session steps against the persisted state `orig`.
`failAt = some k` means step `k` raises; control transfers to the `except`
clause, `db.session.rollback()` discards the uncommitted session and the
persisted state is returned unchanged.  If no step raises,
`db.session.commit()` persists the fully transformed session. -/
def runSession (orig : DB) : DB → List (DB → DB) → Option Nat → DB
  | session, [], _ => session
  | _, _ :: _, some 0 => orig
  | session, step :: rest, some (k+1) => runSession orig (step session) rest (some k)
  | session, step :: rest, none => runSession orig (step session) rest none

/-- `delete_task` (web handler), with an explicit failure position: `404`
when the ownership-scoped lookup misses, otherwise the four-step cascade in
one transaction. -/
def delete_task_run (db : DB) (tid uid : Nat) (failAt : Option Nat) : DB :=
  match findTask db tid uid with
  | none => db
  | some _ => runSession db db (deleteCascadeSteps tid) failAt

/-- `delete_task` on the no-failure path. -/
def delete_task (db : DB) (tid uid : Nat) : DB :=
  delete_task_run db tid uid none

/-- `api_delete_task` (`app/views/api.py` lines 204-222): a bare
`db.session.delete(task)` + commit.  Its table-level effect follows from the
relationship declarations of `app/models/task.py` lines 48-50: `comments`
and `attachments` carry `cascade='all, delete-orphan'`, so the ORM deletes
their rows; `subtasks` has no delete cascade, so the ORM applies its default
policy for a deleted parent and nulls the children's `parent_task_id`. -/
def api_delete_task (db : DB) (tid uid : Nat) : DB :=
  match findTask db tid uid with
  | none => db
  | some _ =>
    { tasks := (db.tasks.map (fun t =>
        if t.parent_task_id = some tid then { t with parent_task_id := none } else t)).filter
        (fun t => t.id ≠ tid),
      comments := db.comments.filter (fun c => c.task_id ≠ tid),
      attachments := db.attachments.filter (fun a => a.task_id ≠ tid) }

/-- No row of any table references task id `tid`, and no task row has id
`tid`: the cascade-completeness postcondition of the delete contract. -/
def noDanglingRefs (db : DB) (tid : Nat) : Prop :=
  (∀ t ∈ db.tasks, t.id ≠ tid ∧ t.parent_task_id ≠ some tid) ∧
  (∀ c ∈ db.comments, c.task_id ≠ tid) ∧
  (∀ a ∈ db.attachments, a.task_id ≠ tid)

instance (db : DB) (tid : Nat) : Decidable (noDanglingRefs db tid) := by
  unfold noDanglingRefs; infer_instance

/-- Reparent policy of the delete contract: every task row of the original
store other than the deleted one survives into the new store — a subtask of
the deleted task (parent_task_id = tid) survives with `parent_task_id`
rewritten to `NULL`, any other row survives unchanged.  In particular no
subtask is recursively deleted. -/
def subtasksReparented (old new : DB) (tid : Nat) : Prop :=
  ∀ t ∈ old.tasks, t.id ≠ tid →
    (if t.parent_task_id = some tid then { t with parent_task_id := none }
     else t) ∈ new.tasks

instance (old new : DB) (tid : Nat) :
    Decidable (subtasksReparented old new tid) := by
  unfold subtasksReparented; infer_instance

/-! ### Task creation (`create_task`, `app/views/tasks.py` lines 73-134 and
`api_create_task`, `app/views/api.py` lines 89-135) -/

/-- `create_task` (web form handler).  Validation performed: the stripped
title must be non-empty (`if not title`).  The parent reference is taken
straight from the form — `task.parent_task_id = parent_task_id if
parent_task_id else None` (line 113) — with no existence or ownership check;
Python truthiness maps an absent field and the value `0` to `None`.  Date
parsing, flash messages and template rendering are outside the store model;
`estimated_hours` is omitted (no claim touches it).  Returns `none` exactly
when validation fails, in which case nothing is persisted. -/
def create_task (db : DB) (uid : Nat) (title tags : PyStr)
    (category : Option PyStr) (project_id parent_task_id : Option Nat)
    (due_date : Option Nat) (newId now : Nat) : Option DB :=
  let title := pyStrip title
  if title = [] then none
  else
    some { db with tasks := db.tasks ++
      [{ id := newId
         title := title
         user_id := uid
         project_id := match project_id with
                       | some p => if p ≠ 0 then some p else none
                       | none => none
         parent_task_id := match parent_task_id with
                           | some p => if p ≠ 0 then some p else none
                           | none => none
         is_completed := false
         created_at := now
         tags := if tags ≠ [] then
                   set_tags (some (((pySplitComma tags).filter
                     (fun t => pyStrip t ≠ [])).map pyStrip))
                 else []
         category := category
         due_date := due_date }] }

/-- `api_create_task` (JSON).  `validate_json(['title'])` rejects an absent
or falsy (empty) title; the title is stored unstripped.  The parent branch
`if data.get('parent_task_id'): task.parent_task_id = data['parent_task_id']`
(lines 117-118) again stores whatever id the client sent, unvalidated. -/
def api_create_task (db : DB) (uid : Nat) (title : PyStr)
    (tags : Option (List PyStr)) (category : Option PyStr)
    (project_id parent_task_id : Option Nat) (due_date : Option Nat)
    (newId now : Nat) : Option DB :=
  if title = [] then none
  else
    some { db with tasks := db.tasks ++
      [{ id := newId
         title := title
         user_id := uid
         project_id := match project_id with
                       | some p => if p ≠ 0 then some p else none
                       | none => none
         parent_task_id := match parent_task_id with
                           | some p => if p ≠ 0 then some p else none
                           | none => none
         is_completed := false
         created_at := now
         tags := match tags with
                 | some l => if l ≠ [] then set_tags (some l) else []
                 | none => []
         category := category
         due_date := due_date }] }

/-! ### API task listing (`api_get_tasks`, `app/views/api.py` lines 43-87) -/

/-- `per_page = min(request.args.get('per_page', 10, type=int), 100)`
(line 48): absent or unparsable query value falls back to 10, then the
Python `min` clamp. -/
def api_per_page (requested : Option ℤ) : ℤ :=
  min (requested.getD 10) 100

/-- Status filter of `api_get_tasks` (lines 57-62). -/
inductive StatusFilter where
  | completed | pending | byStatus (s : TaskStatus) | noFilter
  deriving DecidableEq, Repr

/-- The query built by `api_get_tasks`: rows scoped to the current user,
optionally filtered, ordered by `created_at` descending. -/
def api_tasks_query (db : DB) (uid : Nat) (sf : StatusFilter)
    (project_id : Option Nat) : List TaskRow :=
  let q := db.tasks.filter (fun t => t.user_id == uid)
  let q : List TaskRow :=
    match sf with
    | .completed => q.filter (fun t => t.is_completed)
    | .pending => q.filter (fun t => !t.is_completed)
    | .byStatus _ => q
    | .noFilter => q
  let q : List TaskRow :=
    match project_id with
    | some p => q.filter (fun t => t.project_id == some p)
    | none => q
  q.mergeSort (fun a b => b.created_at ≤ a.created_at)

/-- Flask-SQLAlchemy `paginate(page=page, per_page=per_page,
error_out=False)`: with `error_out=False` a page below 1 is coerced to 1,
and the items are the window `[(page-1)*per_page, page*per_page)`. -/
def paginateItems (l : List TaskRow) (page per_page : ℤ) : List TaskRow :=
  let page := max page 1
  (l.drop ((page - 1) * per_page).toNat).take per_page.toNat

/-- The task records returned by one `api_get_tasks` response. -/
def api_get_tasks (db : DB) (uid : Nat) (sf : StatusFilter)
    (project_id : Option Nat) (page : Option ℤ) (per_page : Option ℤ) :
    List TaskRow :=
  paginateItems (api_tasks_query db uid sf project_id) (page.getD 1)
    (api_per_page per_page)

/-! ### Projects (`app/models/project.py`) -/

/-- `self.tasks` of a project: the tasks whose `project_id` is this
project's id (relationship, line 23). -/
def projectTasks (db : DB) (pid : Nat) : List TaskRow :=
  db.tasks.filter (fun t => t.project_id == some pid)

/-- `Project.is_completed` (lines 52-58): `False` for a project with no
tasks, otherwise all tasks completed. -/
def Project.is_completed (db : DB) (pid : Nat) : Bool :=
  let total := (projectTasks db pid).length
  if total = 0 then false
  else total == ((projectTasks db pid).filter (fun t => t.is_completed)).length

/-- Result record of `Project.get_task_stats`.  `completion_rate` is the
Python float `completed / total * 100` rounded by `round(x, 2)`; the claims
only evaluate it on the `total_tasks == 0` branch, where no float operation
runs and the literal 0 is returned. -/
structure TaskStats where
  total_tasks : Nat
  completed_tasks : Nat
  pending_tasks : Nat
  completion_rate : PosRat
  deriving DecidableEq, Repr

/-- `round(x, 2)` on a nonnegative float: scale by 100, round to nearest
with ties to even, keep as an exact fraction over 100. -/
def pyRound2 (q : PosRat) : PosRat :=
  ⟨(PosRat.mk (q.num * 100) q.den).rne, 100⟩

/-- `Project.get_task_stats` (lines 31-44): counts over `self.tasks` and the
guarded completion rate `(completed / total * 100) if total > 0 else 0`. -/
def get_task_stats (db : DB) (pid : Nat) : TaskStats :=
  let total := (projectTasks db pid).length
  let completed := ((projectTasks db pid).filter (fun t => t.is_completed)).length
  { total_tasks := total
    completed_tasks := completed
    pending_tasks := total - completed
    completion_rate :=
      if total > 0 then
        pyRound2 (roundDouble ⟨(roundDouble ⟨completed, total⟩).num * 100,
                               (roundDouble ⟨completed, total⟩).den⟩)
      else ⟨0, 1⟩ }

/-! ## Shared sample data -/

/-- Sample store: user 1 owns task 1 (one subtask, one comment, one
attachment) — TaskRow fields positionally: id, title, user_id, project_id,
parent_task_id, is_completed, created_at, tags, category, due_date. -/
def dbSample : DB :=
  { tasks := [⟨1, ['t'], 1, none, none, false, 0, [], none, none⟩,
              ⟨2, ['u'], 1, none, some 1, false, 1, [], none, none⟩],
    comments := [⟨1, 1, 1⟩],
    attachments := [⟨1, 1, 1⟩] }

/-- The table state both delete paths produce for task `tid`: subtask rows
reparented to `NULL`, comment and attachment rows for `tid` removed, the
task row itself removed. -/
def cascadeResult (db : DB) (tid : Nat) : DB :=
  { tasks := (db.tasks.map (fun t =>
      if t.parent_task_id = some tid then { t with parent_task_id := none } else t)).filter
      (fun t => t.id ≠ tid),
    comments := db.comments.filter (fun c => c.task_id ≠ tid),
    attachments := db.attachments.filter (fun a => a.task_id ≠ tid) }

/-- The common cascade result never references the deleted id. -/
theorem cascadeResult_noDangling (db : DB) (tid : Nat) :
    noDanglingRefs (cascadeResult db tid) tid := by
  refine ⟨?_, ?_, ?_⟩
  · intro t ht
    simp only [cascadeResult, List.mem_filter, List.mem_map] at ht
    obtain ⟨⟨t0, _, rfl⟩, hid⟩ := ht
    refine ⟨by simpa using hid, ?_⟩
    by_cases hp : t0.parent_task_id = some tid
    · simp [hp]
    · simp [hp]
  · intro c hc
    simp only [cascadeResult, List.mem_filter] at hc
    simpa using hc.2
  · intro a ha
    simp only [cascadeResult, List.mem_filter] at ha
    simpa using ha.2

/-- The common cascade result retains every non-deleted task row, rewriting
a subtask's parent reference to `NULL` and keeping other rows unchanged. -/
theorem cascadeResult_subtasksReparented (db : DB) (tid : Nat) :
    subtasksReparented db (cascadeResult db tid) tid := by
  intro t ht hid
  unfold cascadeResult
  rw [List.mem_filter]
  refine ⟨List.mem_map.mpr ⟨t, ht, rfl⟩, ?_⟩
  by_cases hp : t.parent_task_id = some tid
  · simp [hp, hid]
  · simp [hp, hid]

/-- When the ownership lookup succeeds, the web handler's committed session
equals `cascadeResult`. -/
theorem delete_task_eq_cascadeResult (db : DB) (tid uid : Nat) (t0 : TaskRow)
    (h : findTask db tid uid = some t0) :
    delete_task db tid uid = cascadeResult db tid := by
  simp only [delete_task, delete_task_run, h, deleteCascadeSteps, runSession,
    reparentStep, deleteCommentsStep, deleteAttachmentsStep, deleteTaskRowStep,
    cascadeResult]

/-- When the ownership lookup succeeds, the ORM-level cascade of the API
handler equals `cascadeResult`. -/
theorem api_delete_task_eq_cascadeResult (db : DB) (tid uid : Nat) (t0 : TaskRow)
    (h : findTask db tid uid = some t0) :
    api_delete_task db tid uid = cascadeResult db tid := by
  simp only [api_delete_task, h, cascadeResult]

/-- C1: for every task owned by the requesting user, both delete paths (web
handler and JSON API) reparent every subtask row to a `NULL` parent while
keeping it (and every other unrelated row) alive, leave no comment,
attachment or task row referencing the deleted id, and remove the task row
itself. -/
theorem c1_delete_cascade_complete (db : DB) (tid uid : Nat)
    (h : (findTask db tid uid).isSome = true) :
    subtasksReparented db (delete_task db tid uid) tid ∧
    noDanglingRefs (delete_task db tid uid) tid ∧
    subtasksReparented db (api_delete_task db tid uid) tid ∧
    noDanglingRefs (api_delete_task db tid uid) tid := by
  obtain ⟨t0, ht0⟩ := Option.isSome_iff_exists.mp h
  rw [delete_task_eq_cascadeResult db tid uid t0 ht0,
    api_delete_task_eq_cascadeResult db tid uid t0 ht0]
  exact ⟨cascadeResult_subtasksReparented db tid, cascadeResult_noDangling db tid,
    cascadeResult_subtasksReparented db tid, cascadeResult_noDangling db tid⟩

/-- C1 witness: the cascade postcondition — subtask survival with `NULL`
parent included — evaluated on a concrete store whose task 1 has a subtask,
a comment and an attachment. -/
theorem c1_delete_cascade_complete_witness :
    (findTask dbSample 1 1).isSome = true ∧
    subtasksReparented dbSample (delete_task dbSample 1 1) 1 ∧
    noDanglingRefs (delete_task dbSample 1 1) 1 ∧
    subtasksReparented dbSample (api_delete_task dbSample 1 1) 1 ∧
    noDanglingRefs (api_delete_task dbSample 1 1) 1 := by
  have h := c1_delete_cascade_complete dbSample 1 1 (by decide)
  exact ⟨by decide, h.1, h.2.1, h.2.2.1, h.2.2.2⟩

/-- C4: the delete cascade is atomic — an exception raised at any of the
four session steps (reparenting, comment deletion, attachment deletion, task
row deletion) reaches the handler's `except` clause before `commit`, the
session is rolled back, and the persisted store is exactly the store the
operation started from; the no-failure run is the committed cascade. -/
theorem c4_delete_cascade_atomic (db : DB) (tid uid : Nat) (k : Fin 4) :
    delete_task_run db tid uid (some k.val) = db ∧
    delete_task_run db tid uid none = delete_task db tid uid := by
  refine ⟨?_, rfl⟩
  unfold delete_task_run
  cases h : findTask db tid uid with
  | none => rfl
  | some t0 => fin_cases k <;> rfl

/-- C5: `mark_incomplete` resets the task's own completion fields and
touches `updated_at`, and leaves the subtask list — hence every subtask's
`is_completed`, `status` and `completed_at` — entirely unchanged. -/
theorem c5_mark_incomplete_frame (now : Nat) (t : TaskNode) :
    (mark_incomplete now t).is_completed = false ∧
    (mark_incomplete now t).status = TaskStatus.todo ∧
    (mark_incomplete now t).completed_at = none ∧
    (mark_incomplete now t).updated_at = now ∧
    (mark_incomplete now t).subtasks = t.subtasks := by
  simp [mark_incomplete]

/-- Store for the create-validation claim: task 1 belongs to user 1. -/
def dbParent : DB :=
  { tasks := [⟨1, ['t'], 1, none, none, false, 0, [], none, none⟩],
    comments := [], attachments := [] }

/-- C6 (failing input): user 2 creates a task with `parent_task_id = 1`,
a task belonging to user 1, through the web handler — and a task with
`parent_task_id = 999`, which exists nowhere, through the API.  Both
operations succeed and persist the unvalidated reference instead of failing
with a validation error. -/
theorem c6_create_accepts_unvalidated_parent :
    ((create_task dbParent 2 ['x'] [] none none (some 1) none 2 5).map
      (fun db => db.tasks.map (fun t => (t.id, t.user_id, t.parent_task_id)))) =
      some [(1, 1, none), (2, 2, some 1)] ∧
    ((api_create_task dbParent 2 ['x'] none none none (some 999) none 2 5).map
      (fun db => db.tasks.map (fun t => (t.id, t.user_id, t.parent_task_id)))) =
      some [(1, 1, none), (2, 2, some 999)] := by
  decide

/-- C9: the effective page size of `api_get_tasks` is `min(requested, 100)`
with default 10 — never above 100 — and a response holds at most 100 task
records. -/
theorem c9_per_page_clamped (per_page : Option ℤ) (db : DB) (uid : Nat)
    (sf : StatusFilter) (project_id : Option Nat) (page : Option ℤ) :
    api_per_page per_page ≤ 100 ∧
    api_per_page none = 10 ∧
    (∀ v : ℤ, 100 ≤ v → api_per_page (some v) = 100) ∧
    (api_get_tasks db uid sf project_id page per_page).length ≤ 100 := by
  refine ⟨min_le_right _ _, rfl, fun v hv => min_eq_right hv, ?_⟩
  have h1 : (api_get_tasks db uid sf project_id page per_page).length ≤
      (api_per_page per_page).toNat := by
    simp only [api_get_tasks, paginateItems]
    exact List.length_take_le _ _
  refine h1.trans ?_
  have h2 : api_per_page per_page ≤ (100 : ℤ) := min_le_right _ _
  simpa using Int.toNat_le_toNat h2

/-- C9 witness: a request for 150 records per page is clamped to 100. -/
theorem c9_per_page_clamped_witness :
    ((100 : ℤ) ≤ 150) ∧ api_per_page (some 150) = 100 :=
  ⟨by decide,
   (c9_per_page_clamped (some 150) dbSample 1 .noFilter none none).2.2.1 150 (by decide)⟩

/-- C10: for a project with zero tasks, `Project.is_completed` returns
`False` and `get_task_stats` takes the guarded branch, reporting
`completion_rate` 0 (and zero counts) without performing the count-ratio
division. -/
theorem c10_empty_project_views (db : DB) (pid : Nat)
    (h : projectTasks db pid = []) :
    Project.is_completed db pid = false ∧
    (get_task_stats db pid).completion_rate = ⟨0, 1⟩ ∧
    (get_task_stats db pid).total_tasks = 0 ∧
    (get_task_stats db pid).completed_tasks = 0 := by
  simp [Project.is_completed, get_task_stats, h]

/-- C10 witness: evaluated on a store whose only task belongs to a
different project. -/
theorem c10_empty_project_views_witness :
    projectTasks ⟨[⟨1, ['t'], 1, some 2, none, true, 0, [], none, none⟩], [], []⟩ 1 = [] ∧
    Project.is_completed ⟨[⟨1, ['t'], 1, some 2, none, true, 0, [], none, none⟩], [], []⟩ 1
      = false ∧
    (get_task_stats ⟨[⟨1, ['t'], 1, some 2, none, true, 0, [], none, none⟩], [], []⟩ 1).completion_rate
      = ⟨0, 1⟩ := by
  have h := c10_empty_project_views
    ⟨[⟨1, ['t'], 1, some 2, none, true, 0, [], none, none⟩], [], []⟩ 1 (by decide)
  exact ⟨by decide, h.1, h.2.1⟩

/-! ## Completion-flag synchronization (C2) -/

/-- A fresh incomplete task (fields positionally: title, description,
priority, status, is_completed, updated_at, due_date, completed_at, tags,
category, subtasks). -/
def taskFresh : TaskNode :=
  ⟨['a'], none, .medium, .todo, false, 0, none, none, [], none, []⟩

/-- A task already in the completed state. -/
def taskDone : TaskNode :=
  ⟨['b'], none, .medium, .done, true, 3, none, some 3, [], none, []⟩

/-- Payload `\x7b"is_completed": true\x7d`. -/
def updSetCompleted : UpdateData :=
  ⟨none, none, none, none, some true, none, none, none⟩

/-- Payload `\x7b"status": "todo"\x7d`. -/
def updSetStatusTodo : UpdateData :=
  ⟨none, none, none, some .todo, none, none, none, none⟩

/-- C2 counterexample: two supported mutations through the generic update
endpoint — first `is_completed: true`, then `status: "todo"` — leave the
task with `is_completed = true`, `status ≠ DONE` and a stale completion
timestamp.  The listener fires only on writes to `is_completed`, so a
direct status write desynchronizes the pair, refuting the claim that no
sequence of supported mutations can reach such a state. -/
theorem c2_flag_sync_counterexample :
    (api_update_task updSetStatusTodo 2 (api_update_task updSetCompleted 1 taskFresh)).is_completed
      = true ∧
    (api_update_task updSetStatusTodo 2 (api_update_task updSetCompleted 1 taskFresh)).status
      ≠ TaskStatus.done ∧
    (api_update_task updSetStatusTodo 2 (api_update_task updSetCompleted 1 taskFresh)).status
      = TaskStatus.todo := by
  decide

/-- C2 (amended): writing the completion flag — through the listener that
every write path shares — synchronizes status and timestamp whenever the
flag changes value: a false→true write yields `DONE` plus a timestamp, a
true→false write yields `TODO` plus a cleared timestamp, and the dedicated
mark-complete/mark-incomplete operations establish the same states.  (A
direct status write, which does not touch the flag, is not synchronized —
see the counterexample.) -/
theorem c2_flag_sync_amended (t : TaskNode) (now : Nat) :
    (t.is_completed = false →
      (task_completion_listener now t true).is_completed = true ∧
      (task_completion_listener now t true).status = TaskStatus.done ∧
      (task_completion_listener now t true).completed_at = some now) ∧
    (t.is_completed = true →
      (task_completion_listener now t false).is_completed = false ∧
      (task_completion_listener now t false).status = TaskStatus.todo ∧
      (task_completion_listener now t false).completed_at = none) ∧
    ((mark_completed now t).is_completed = true ∧
      (mark_completed now t).status = TaskStatus.done ∧
      (mark_completed now t).completed_at = some now) ∧
    ((mark_incomplete now t).is_completed = false ∧
      (mark_incomplete now t).status = TaskStatus.todo ∧
      (mark_incomplete now t).completed_at = none) := by
  refine ⟨?_, ?_, ?_, ?_⟩
  · intro h; simp [task_completion_listener, h]
  · intro h; simp [task_completion_listener, h]
  · cases t; simp [mark_completed]
  · simp [mark_incomplete]

/-- C2 witness: the flag-change synchronization evaluated on concrete
tasks. -/
theorem c2_flag_sync_amended_witness :
    taskFresh.is_completed = false ∧
    (task_completion_listener 7 taskFresh true).status = TaskStatus.done ∧
    (task_completion_listener 7 taskFresh true).completed_at = some 7 ∧
    taskDone.is_completed = true ∧
    (task_completion_listener 7 taskDone false).status = TaskStatus.todo ∧
    (task_completion_listener 7 taskDone false).completed_at = none := by
  have h1 := c2_flag_sync_amended taskFresh 7
  have h2 := c2_flag_sync_amended taskDone 7
  exact ⟨rfl, (h1.1 rfl).2.1, (h1.1 rfl).2.2, rfl, (h2.2.1 rfl).2.1, (h2.2.1 rfl).2.2⟩

/-! ## Completion cascade (C3) -/

/-- Unfolding lemma for `allNodes`. -/
theorem allNodes_eq (p : TaskNode → Bool) (t : TaskNode) :
    allNodes p t = (p t && allNodesList p t.subtasks) := by
  cases t; simp [allNodes]

/-- `allNodesList` is `all` over the list. -/
theorem allNodesList_eq_all (p : TaskNode → Bool) (l : List TaskNode) :
    allNodesList p l = l.all (allNodes p) := by
  induction l with
  | nil => simp [allNodesList]
  | cons s rest ih => simp [allNodesList, ih]

/-- Unfolding lemma for `mark_completed`. -/
theorem mark_completed_eq (now : Nat) (t : TaskNode) :
    mark_completed now t =
      ⟨t.title, t.description, t.priority, .done, true, now, t.due_date,
       some now, t.tags, t.category, mark_completed_subtasks now t.subtasks⟩ := by
  cases t; simp [mark_completed]

/-- The subtask loop of `mark_completed` is a guarded map. -/
theorem mark_completed_subtasks_eq (now : Nat) (l : List TaskNode) :
    mark_completed_subtasks now l =
      l.map (fun s => if s.is_completed then s else mark_completed now s) := by
  induction l with
  | nil => simp [mark_completed_subtasks]
  | cons s rest ih => simp [mark_completed_subtasks, ih]

/-- The subtask list of a node is smaller than the node. -/
theorem sizeOf_subtasks_lt (t : TaskNode) : sizeOf t.subtasks < sizeOf t := by
  cases t; simp

/-- In a hereditarily consistent tree, a completed root means the whole
subtree is completed. -/
theorem hered_completed_all (n : Nat) : ∀ t : TaskNode, sizeOf t ≤ n →
    allNodes hereditaryCompletion t = true → t.is_completed = true →
    allNodes (fun s => s.is_completed) t = true := by
  induction n using Nat.strong_induction_on with
  | _ n ih =>
    intro t hsz hh hc
    rw [allNodes_eq] at hh ⊢
    rw [Bool.and_eq_true] at hh
    obtain ⟨hloc, hlist⟩ := hh
    rw [Bool.and_eq_true]
    refine ⟨hc, ?_⟩
    rw [allNodesList_eq_all, List.all_eq_true] at hlist ⊢
    intro s hs
    have hsc : s.is_completed = true := by
      simp only [hereditaryCompletion, hc, Bool.not_true, Bool.false_or,
        List.all_eq_true] at hloc
      exact hloc s hs
    have hlt : sizeOf s < n :=
      lt_of_lt_of_le
        (lt_trans (List.sizeOf_lt_of_mem hs) (sizeOf_subtasks_lt t)) hsz
    exact ih (sizeOf s) hlt s le_rfl (hlist s hs) hsc

/-- After `mark_completed` on a hereditarily consistent tree, the entire
subtree is completed. -/
theorem mark_completed_all (now : Nat) (n : Nat) : ∀ t : TaskNode, sizeOf t ≤ n →
    allNodes hereditaryCompletion t = true →
    allNodes (fun s => s.is_completed) (mark_completed now t) = true := by
  induction n using Nat.strong_induction_on with
  | _ n ih =>
    intro t hsz hh
    rw [allNodes_eq] at hh
    rw [Bool.and_eq_true] at hh
    obtain ⟨_, hlist⟩ := hh
    rw [mark_completed_eq, allNodes_eq, Bool.and_eq_true]
    refine ⟨rfl, ?_⟩
    show allNodesList _ (mark_completed_subtasks now t.subtasks) = true
    rw [mark_completed_subtasks_eq, allNodesList_eq_all, List.all_eq_true]
    intro s2 hs2
    rw [List.mem_map] at hs2
    obtain ⟨s, hs, rfl⟩ := hs2
    rw [allNodesList_eq_all, List.all_eq_true] at hlist
    have hheds := hlist s hs
    have hlt : sizeOf s < n :=
      lt_of_lt_of_le
        (lt_trans (List.sizeOf_lt_of_mem hs) (sizeOf_subtasks_lt t)) hsz
    by_cases hc : s.is_completed = true
    · rw [if_pos hc]
      exact hered_completed_all (sizeOf s) s le_rfl hheds hc
    · rw [if_neg hc]
      exact ih (sizeOf s) hlt s le_rfl hheds

/-- Subtask trees for the C3 counterexample: an incomplete leaf under a
completed middle task under an incomplete root — a state the application
itself reaches by completing the middle task and then marking the leaf
incomplete (which does not cascade upward). -/
def leafC : TaskNode :=
  ⟨['c'], none, .medium, .todo, false, 0, none, none, [], none, []⟩

/-- Completed middle task with the incomplete leaf as subtask. -/
def midB : TaskNode :=
  ⟨['b'], none, .medium, .done, true, 0, none, some 0, [], none, [leafC]⟩

/-- Incomplete root with `midB` as its only subtask. -/
def rootA : TaskNode :=
  ⟨['a'], none, .medium, .todo, false, 0, none, none, [], none, [midB]⟩

/-- C3 counterexample: `mark_completed` on `rootA` skips the already
completed subtask `midB` (the loop guard `if not subtask.is_completed`) and
therefore never reaches the incomplete grandchild `leafC`; afterwards not
all descendants are completed, refuting the 100 % cascade claim. -/
theorem c3_completion_cascade_counterexample :
    descendantsCompleted (mark_completed 5 rootA) = false ∧
    (mark_completed 5 rootA).is_completed = true := by
  have e1 : mark_completed 5 rootA =
      ⟨['a'], none, .medium, .done, true, 5, none, some 5, [], none, [midB]⟩ := by
    rw [mark_completed_eq, mark_completed_subtasks_eq]
    simp [rootA, midB]
  rw [e1]
  constructor
  · simp [descendantsCompleted, allNodesList_eq_all, allNodes_eq, midB, leafC]
  · rfl

/-- C3 (amended): on a tree in which every already-completed task has only
completed subtasks — the only states the application's own completion
operations produce, since completion cascades and un-completion does not
recurse — `mark_completed` sets the root's flag, status, completion
timestamp and update timestamp, and afterwards 100 % of the direct and
indirect subtasks are completed.  On trees with an incomplete descendant
hidden under a completed subtask the cascade stops early (see the
counterexample). -/
theorem c3_completion_cascade_amended (now : Nat) (t : TaskNode)
    (h : allNodes hereditaryCompletion t = true) :
    (mark_completed now t).is_completed = true ∧
    (mark_completed now t).status = TaskStatus.done ∧
    (mark_completed now t).completed_at = some now ∧
    (mark_completed now t).updated_at = now ∧
    descendantsCompleted (mark_completed now t) = true := by
  have hall := mark_completed_all now (sizeOf t) t le_rfl h
  rw [allNodes_eq, Bool.and_eq_true] at hall
  rw [mark_completed_eq] at hall ⊢
  exact ⟨rfl, rfl, rfl, rfl, hall.2⟩

/-- An all-incomplete two-level tree (hereditarily consistent). -/
def rootA2 : TaskNode :=
  ⟨['d'], none, .medium, .todo, false, 0, none, none, [], none, [leafC]⟩

/-- C3 witness: a two-level incomplete tree satisfies the hereditary
hypothesis, and marking it complete completes every descendant. -/
theorem c3_completion_cascade_amended_witness :
    allNodes hereditaryCompletion rootA2 = true ∧
    descendantsCompleted (mark_completed 9 rootA2) = true ∧
    (mark_completed 9 rootA2).status = TaskStatus.done := by
  have h := c3_completion_cascade_amended 9 rootA2
    (by simp [allNodes_eq, allNodesList_eq_all, hereditaryCompletion, rootA2, leafC])
  exact ⟨by simp [allNodes_eq, allNodesList_eq_all, hereditaryCompletion, rootA2, leafC],
    h.2.2.2.2, h.2.1⟩

/-! ## Progress percentage (C7) -/

set_option maxRecDepth 4000 in
/-- For subtask counts up to 10, the float computation coincides with the
exact integer-truncated ratio. -/
theorem progressFloat_small :
    ∀ total < 11, 0 < total → ∀ c ≤ total, progressFloat c total = 100 * c / total := by
  decide

/-- A completed leaf subtask. -/
def leafDone : TaskNode :=
  ⟨['s'], none, .medium, .done, true, 0, none, some 0, [], none, []⟩

/-- An incomplete leaf subtask. -/
def leafTodo : TaskNode :=
  ⟨['s'], none, .medium, .todo, false, 0, none, none, [], none, []⟩

/-- A task with 50 subtasks of which 29 are completed. -/
def bigTask : TaskNode :=
  ⟨['p'], none, .medium, .todo, false, 0, none, none, [], none,
   List.replicate 29 leafDone ++ List.replicate 21 leafTodo⟩

set_option maxRecDepth 4000 in
/-- C7 counterexample: for 29 completed subtasks out of 50 the exact
truncated ratio is 58, but the handler computes `int((29 / 50) * 100)` in
binary64 arithmetic, where `29 / 50` rounds below `0.58` and the product
rounds below `58.0`, so the code reports 57.  The claimed formula therefore
does not hold for every task. -/
theorem c7_progress_counterexample :
    get_progress_percentage bigTask = 57 ∧
    (bigTask.subtasks.filter (fun s => s.is_completed)).length = 29 ∧
    bigTask.subtasks.length = 50 ∧
    100 * 29 / 50 = 58 ∧
    get_progress_percentage bigTask ≠ 100 * 29 / 50 := by
  refine ⟨by decide, by decide, by decide, by decide, by decide⟩

/-- C7 (amended): `get_progress_percentage` is a pure function of the task
(side-effect freedom holds by construction of the embedding); with no
subtasks it reports 100 when completed and 0 otherwise; with 1-10 subtasks
it equals the exact truncated ratio `(completed / total) * 100`.  For larger
subtask counts the binary64 rounding can undershoot the exact ratio by one
(see the 29-of-50 counterexample). -/
theorem c7_progress_amended (t : TaskNode) :
    (t.subtasks.length = 0 →
      get_progress_percentage t = if t.is_completed then 100 else 0) ∧
    (0 < t.subtasks.length → t.subtasks.length ≤ 10 →
      get_progress_percentage t =
        100 * (t.subtasks.filter (fun s => s.is_completed)).length /
          t.subtasks.length) := by
  constructor
  · intro h; simp [get_progress_percentage, h]
  · intro h1 h2
    have hne : ¬ t.subtasks.length = 0 := Nat.pos_iff_ne_zero.mp h1
    simp only [get_progress_percentage, if_neg hne]
    exact progressFloat_small t.subtasks.length (by omega) h1 _
      (List.length_filter_le _ _)

/-- A task with 4 subtasks of which 1 is completed. -/
def quarterTask : TaskNode :=
  ⟨['q'], none, .medium, .todo, false, 0, none, none, [], none,
   [leafDone, leafTodo, leafTodo, leafTodo]⟩

/-- C7 witness: the spec's own example — 4 subtasks, 1 completed — reports
progress 25. -/
theorem c7_progress_amended_witness :
    0 < quarterTask.subtasks.length ∧ quarterTask.subtasks.length ≤ 10 ∧
    get_progress_percentage quarterTask =
      100 * (quarterTask.subtasks.filter (fun s => s.is_completed)).length /
        quarterTask.subtasks.length ∧
    get_progress_percentage quarterTask = 25 := by
  refine ⟨by decide, by decide,
    (c7_progress_amended quarterTask).2 (by decide) (by decide), by decide⟩

/-! ## Tag round-trip (C8) -/

/-- `dropWhile` is idempotent. -/
theorem dropWhile_idem (p : Char → Bool) (l : List Char) :
    (l.dropWhile p).dropWhile p = l.dropWhile p := by
  cases h : l.dropWhile p with
  | nil => simp
  | cons a as =>
    have hpa : p a = false := by
      have h0 := List.head?_dropWhile_not p l
      rw [h] at h0
      simpa using h0
    simp [List.dropWhile_cons, hpa]

/-- A list whose head fails `p` is unchanged by `dropWhile p`. -/
theorem dropWhile_eq_self_of_head (p : Char → Bool) (l : List Char)
    (hok : ∀ a, l.head? = some a → p a = false) : l.dropWhile p = l := by
  cases l with
  | nil => rfl
  | cons a as => simp [List.dropWhile_cons, hok a rfl]

/-- Removing a trailing run (via reverse / `dropWhile` / reverse) keeps the
head property: if `w` does not start with a `p`-character, neither does its
trailing-stripped form. -/
theorem strip_trailing_head (p : Char → Bool) (w : List Char)
    (hok : ∀ a, w.head? = some a → p a = false) :
    ∀ a, ((w.reverse.dropWhile p).reverse).head? = some a → p a = false := by
  cases w with
  | nil => intro a ha; simp at ha
  | cons b w2 =>
    have hb : p b = false := hok b rfl
    intro a ha
    rw [List.reverse_cons, List.dropWhile_append] at ha
    by_cases he : (List.dropWhile p w2.reverse).isEmpty
    · rw [if_pos he] at ha
      simp [List.dropWhile_cons, hb] at ha
      rw [← ha]; exact hb
    · rw [if_neg he] at ha
      rw [List.reverse_append] at ha
      simp at ha
      rw [← ha]; exact hb

/-- The head of a `dropWhile p` result never satisfies `p`. -/
theorem head_ok_dropWhile (p : Char → Bool) (l : List Char) :
    ∀ a, (l.dropWhile p).head? = some a → p a = false := by
  intro a ha
  have h0 := List.head?_dropWhile_not p l
  rw [ha] at h0
  exact h0

/-- Python `strip` is idempotent. -/
theorem pyStrip_idem (s : PyStr) : pyStrip (pyStrip s) = pyStrip s := by
  unfold pyStrip
  have okz := strip_trailing_head pyIsSpace (s.dropWhile pyIsSpace)
    (head_ok_dropWhile pyIsSpace s)
  rw [dropWhile_eq_self_of_head pyIsSpace _ okz, List.reverse_reverse,
    dropWhile_idem]

/-- Every character of `pyStrip s` is a character of `s`. -/
theorem mem_of_mem_pyStrip {c : Char} {s : PyStr} (h : c ∈ pyStrip s) :
    c ∈ s := by
  unfold pyStrip at h
  rw [List.mem_reverse] at h
  have h2 := (List.dropWhile_sublist pyIsSpace).subset h
  rw [List.mem_reverse] at h2
  exact (List.dropWhile_sublist pyIsSpace).subset h2

/-- A comma-joined list of nonempty pieces is nonempty. -/
theorem pyJoinComma_ne_nil (m : PyStr) (rest : List PyStr) (hm : m ≠ []) :
    pyJoinComma (m :: rest) ≠ [] := by
  cases rest with
  | nil => simpa [pyJoinComma, List.intercalate] using hm
  | cons r rest2 =>
    simp only [pyJoinComma, List.intercalate, List.intersperse,
      List.flatten_cons]
    intro hcontra
    rcases List.append_eq_nil.mp hcontra with ⟨h1, h2⟩
    rcases List.append_eq_nil.mp (List.append_eq_nil.mp hcontra).2 with ⟨h3, _⟩
    exact List.cons_ne_nil ',' [] h3

/-- Mapping a function that fixes every element is the identity. -/
theorem map_id_of_mem {l : List PyStr} {f : PyStr → PyStr}
    (h : ∀ a ∈ l, f a = a) : l.map f = l := by
  induction l with
  | nil => rfl
  | cons a as ih =>
    rw [List.map_cons, h a (List.mem_cons_self a as),
      ih (fun b hb => h b (List.mem_cons_of_mem a hb))]

/-- C8 counterexample: a tag containing the storage delimiter does not
survive the round-trip.  Setting tags from `["a,b"]` stores `"a,b"`, and
reading back splits at the comma, yielding `["a", "b"]` instead of the
trimmed original list `["a,b"]`. -/
theorem c8_tags_roundtrip_counterexample :
    get_tags_list (set_tags (some [['a', ',', 'b']])) = [['a'], ['b']] ∧
    ([['a', ',', 'b']].filter (fun t => pyStrip t ≠ [])).map pyStrip
      = [['a', ',', 'b']] ∧
    ([['a'], ['b']] : List PyStr) ≠ [['a', ',', 'b']] := by
  refine ⟨by decide, by decide, by decide⟩

/-- C8 (amended): provided no tag contains a comma — the storage delimiter —
setting a task's tags from a list and reading them back yields exactly the
list obtained by trimming whitespace from each entry and discarding entries
that trim to empty, in order; setting from an empty or null list stores the
empty string, which reads back as `[]`.  (A tag containing a comma is split
at the comma on read-back — see the counterexample.) -/
theorem c8_tags_roundtrip_amended (l : List PyStr) (h : ∀ t ∈ l, ',' ∉ t) :
    get_tags_list (set_tags (some l)) =
      (l.filter (fun t => pyStrip t ≠ [])).map pyStrip ∧
    get_tags_list (set_tags (some [])) = [] ∧
    get_tags_list (set_tags none) = [] := by
  refine ⟨?_, by simp [set_tags, get_tags_list], by simp [set_tags, get_tags_list]⟩
  by_cases hl : l = []
  · subst hl; simp [set_tags, get_tags_list]
  · have hMok : ∀ m ∈ (l.filter (fun t => pyStrip t ≠ [])).map pyStrip,
        (',' ∉ m) ∧ m ≠ [] ∧ pyStrip m = m := by
      intro m hm
      rw [List.mem_map] at hm
      obtain ⟨t, ht, rfl⟩ := hm
      rw [List.mem_filter] at ht
      obtain ⟨htl, hts⟩ := ht
      refine ⟨fun hmem => h t htl (mem_of_mem_pyStrip hmem), by simpa using hts,
        pyStrip_idem t⟩
    have hstored : set_tags (some l) =
        pyJoinComma ((l.filter (fun t => pyStrip t ≠ [])).map pyStrip) := by
      simp [set_tags, hl]
    cases hMcase : (l.filter (fun t => pyStrip t ≠ [])).map pyStrip with
    | nil => rw [hstored, hMcase]; simp [pyJoinComma, List.intercalate, get_tags_list]
    | cons m rest =>
      have hmM : m ∈ (l.filter (fun t => pyStrip t ≠ [])).map pyStrip := by
        rw [hMcase]; exact List.mem_cons_self m rest
      have hne : pyJoinComma (m :: rest) ≠ [] :=
        pyJoinComma_ne_nil m rest (hMok m hmM).2.1
      have hsplit : pySplitComma (pyJoinComma (m :: rest)) = m :: rest := by
        unfold pySplitComma pyJoinComma
        refine List.splitOn_intercalate _ ',' ?_ (List.cons_ne_nil m rest)
        intro piece hpiece
        rw [← hMcase] at hpiece
        exact (hMok piece hpiece).1
      rw [hstored, hMcase]
      unfold get_tags_list
      rw [if_neg hne, hsplit]
      have hfix : ∀ piece ∈ m :: rest, pyStrip piece = piece ∧ piece ≠ [] := by
        intro piece hpiece
        rw [← hMcase] at hpiece
        exact ⟨(hMok piece hpiece).2.2, (hMok piece hpiece).2.1⟩
      have hfilter : (m :: rest).filter (fun t => pyStrip t ≠ []) = m :: rest := by
        rw [List.filter_eq_self]
        intro piece hpiece
        have := hfix piece hpiece
        simp [this.1, this.2]
      rw [hfilter, ← hMcase]
      rw [hMcase]
      exact map_id_of_mem (fun piece hpiece => (hfix piece hpiece).1)

/-- C8 witness: the amended round-trip evaluated on a list with surrounding
whitespace and an all-whitespace entry. -/
theorem c8_tags_roundtrip_amended_witness :
    get_tags_list (set_tags (some [['a'], [' ', 'b', ' '], [' ']])) =
      ([['a'], [' ', 'b', ' '], [' ']].filter (fun t => pyStrip t ≠ [])).map pyStrip ∧
    get_tags_list (set_tags (some [['a'], [' ', 'b', ' '], [' ']])) = [['a'], ['b']] := by
  have h := (c8_tags_roundtrip_amended [['a'], [' ', 'b', ' '], [' ']] (by decide)).1
  exact ⟨h, by decide⟩

end TaskMgr
